import Mathlib

/-!
Verification development for the peloterm BLE cycling-metrics program.

The Python sources are shallowly embedded: byte strings become `List Nat`
(one entry per byte, each in `[0, 255]`), Python floats become `Rat`,
Python `round` becomes round-half-to-even, Python dictionaries become
insertion-ordered association lists, exceptions become `Except PyErr`,
and asynchronous callbacks become explicit event lists returned by the
handler that would have invoked them.
-/

namespace Peloterm

/-- Python exception kinds that can arise in the embedded code. -/
inductive PyErr where
  | typeError
  | valueError
  | indexError
  deriving DecidableEq, Repr

/-- A Python value as it flows through the metric pipeline: `int`,
`float` (embedded as a rational), `None`, or some other non-numeric
object (tagged with a descriptive string); `float(...)` raises on the
latter two. -/
inductive PyVal where
  | int : Int → PyVal
  | float : Rat → PyVal
  | none : PyVal
  | other : String → PyVal
  deriving DecidableEq, Repr

/-- Python `float(value)`: succeeds on `int` and `float`, raises
`TypeError` on `None` and `ValueError`/`TypeError` on other
non-numeric objects. -/
def pyFloat : PyVal → Except PyErr Rat
  | .int i => .ok (i : Rat)
  | .float q => .ok q
  | .none => .error .typeError
  | .other _ => .error .valueError

/-- Python `round(x)`: nearest integer, ties to the even integer. -/
def roundHalfEven (q : Rat) : Int :=
  let f := ⌊q⌋
  let frac := q - (f : Rat)
  if frac < 1/2 then f
  else if 1/2 < frac then f + 1
  else if f % 2 = 0 then f else f + 1

/-- Python `int.from_bytes(bs, byteorder="little")` on a list of byte
values. -/
def intFromBytesLE : List Nat → Nat
  | [] => 0
  | b :: rest => b + 256 * intFromBytesLE rest

/-- Lookup in an insertion-ordered dictionary modelled as an
association list. -/
def alookup {α : Type} : List (String × α) → String → Option α
  | [], _ => none
  | (k, v) :: rest, key => if k = key then some v else alookup rest key

/-- Python dictionary assignment `d[key] = v`: overwrite in place if the
key exists, otherwise append at the end (insertion order). -/
def aset {α : Type} : List (String × α) → String → α → List (String × α)
  | [], key, v => [(key, v)]
  | (k, w) :: rest, key, v =>
      if k = key then (k, v) :: rest else (k, w) :: aset rest key v

/-! ## Metric Buffer (`peloterm/data_processor.py`, class `DataProcessor`) -/

/-- State of `DataProcessor`: `current_values` and `last_update_time`
are `defaultdict`s (absent update times read as `0.0`), and
`stale_threshold` defaults to `2.0` seconds. -/
structure DataProcessor where
  current_values : List (String × PyVal)
  last_update_time : List (String × Rat)
  stale_threshold : Rat
  deriving DecidableEq, Repr

/-- `DataProcessor(stale_threshold=2.0)`: fresh processor with the
default staleness threshold. -/
def DataProcessor.new : DataProcessor :=
  { current_values := [], last_update_time := [], stale_threshold := 2 }

/-- `DataProcessor.update_metric(metric_name, value)` at wall-clock time
`now`.  Speed values (other than `None`) are rounded to one decimal via
`round(float(value), 1)` — with no exception guard, so a non-numeric
speed raises; every other metric tries `round(float(value))` and keeps
the original value if `float` raises `TypeError`/`ValueError`.  Both
dictionaries are then stamped. -/
def DataProcessor.update_metric (dp : DataProcessor) (metric_name : String)
    (value : PyVal) (now : Rat) : Except PyErr DataProcessor :=
  let roundedE : Except PyErr PyVal :=
    if metric_name = "speed" ∧ value ≠ PyVal.none then
      (pyFloat value).map (fun q => PyVal.float ((roundHalfEven (10 * q) : Rat) / 10))
    else
      match pyFloat value with
      | .ok q => .ok (.int (roundHalfEven q))
      | .error _ => .ok value
  roundedE.map fun v =>
    { dp with
      current_values := aset dp.current_values metric_name v,
      last_update_time := aset dp.last_update_time metric_name now }

/-- The per-metric staleness policy applied by `get_processed_metrics`:
a metric not updated within `stale_threshold` seconds reads as `0` if it
is `"cadence"` and as its last stored value otherwise. -/
def DataProcessor.processedValue (dp : DataProcessor) (current_time : Rat)
    (metric : String) (value : PyVal) : PyVal :=
  let time_since_update := current_time - (alookup dp.last_update_time metric).getD 0
  if dp.stale_threshold < time_since_update then
    if metric = "cadence" then PyVal.int 0 else value
  else value

/-- `DataProcessor.get_processed_metrics()` evaluated at wall-clock time
`current_time`: every metric ever stored in `current_values`, filtered
through the staleness policy. -/
def DataProcessor.get_processed_metrics (dp : DataProcessor) (current_time : Rat) :
    List (String × PyVal) :=
  dp.current_values.map fun p => (p.1, dp.processedValue current_time p.1 p.2)

/-! ## Speed/cadence sensor (`peloterm/devices/speed_cadence.py`,
class `SpeedCadenceDevice`) -/

/-- The parts of `SpeedCadenceDevice` state touched by
`handle_csc_measurement`: the previous crank snapshot (the stored event
time is the wraparound-corrected value, so it can exceed 65535), the
cached `current_values["cadence"]`, the device's `available_metrics`
list, the `_received_data` flag, and whether a `data_callback` is
configured. -/
structure SpeedCadenceDevice where
  last_crank_time : Option Nat
  last_crank_revs : Option Nat
  cadence_value : Option PyVal
  available_metrics : List String
  received_data : Bool
  has_callback : Bool
  deriving DecidableEq, Repr

/-- A fresh `SpeedCadenceDevice` with a data callback configured (as the
controller always does). -/
def SpeedCadenceDevice.new : SpeedCadenceDevice :=
  { last_crank_time := Option.none, last_crank_revs := Option.none,
    cadence_value := Option.none, available_metrics := [],
    received_data := false, has_callback := true }

/-- Body of `handle_csc_measurement` (the code inside its `try`).
Returns the updated device state together with the list of
`(metric, value)` pairs passed to `data_callback`.  `data[0]` raises
`IndexError` on an empty payload; all later reads are slices, which a
short payload silently truncates (missing bytes read as zero).  When the
cadence flag (bit 1 of byte 0) is set and a previous snapshot exists,
the event-time and revolution deltas are wraparound-corrected by adding
65536 when the new raw value precedes the stored one, and
`round(cadence)` is emitted when the time delta is positive. -/
def SpeedCadenceDevice.csc_body (data : List Nat) (s : SpeedCadenceDevice) :
    Except PyErr (SpeedCadenceDevice × List (String × PyVal)) :=
  match data.head? with
  | Option.none => .error .indexError
  | some flags =>
    let has_speed := flags % 2 = 1
    let has_cadence := flags / 2 % 2 = 1
    let i := if has_speed then 7 else 1
    if has_cadence then
      let crank_revs := intFromBytesLE ((data.drop i).take 2)
      let crank_event_time := intFromBytesLE ((data.drop (i + 2)).take 2)
      match s.last_crank_time, s.last_crank_revs with
      | some last_t, some last_r =>
        let cet := if crank_event_time < last_t then crank_event_time + 65536
                   else crank_event_time
        let time_diff : Rat := ((cet : Rat) - (last_t : Rat)) / 1024
        if 0 < time_diff then
          let rd : Int := (crank_revs : Int) - (last_r : Int)
          let rev_diff : Int := if rd < 0 then rd + 65536 else rd
          let cadence : Rat := ((rev_diff : Rat) * 60) / time_diff
          let rounded := roundHalfEven cadence
          .ok ({ s with
                 cadence_value := some (PyVal.int rounded),
                 available_metrics :=
                   if "cadence" ∈ s.available_metrics then s.available_metrics
                   else s.available_metrics ++ ["cadence"],
                 last_crank_time := some cet,
                 last_crank_revs := some crank_revs,
                 received_data := true },
               if s.has_callback then [("cadence", PyVal.int rounded)] else [])
        else
          .ok ({ s with
                 last_crank_time := some cet,
                 last_crank_revs := some crank_revs,
                 received_data := true }, [])
      | _, _ =>
        .ok ({ s with
               last_crank_time := some crank_event_time,
               last_crank_revs := some crank_revs,
               received_data := true }, [])
    else
      .ok ({ s with received_data := true }, [])

/-- `handle_csc_measurement` with its enclosing `try`/`except`: any
exception is swallowed.  The only raising operation, `data[0]`, happens
before any state mutation, so the except branch leaves the state
unchanged and emits nothing. -/
def SpeedCadenceDevice.handle_csc_measurement (data : List Nat)
    (s : SpeedCadenceDevice) : SpeedCadenceDevice × List (String × PyVal) :=
  match s.csc_body data with
  | .ok r => r
  | .error _ => (s, [])

/-- A CSC Measurement frame carrying only the cadence fields: flags byte
`0x02`, then the 16-bit little-endian cumulative crank revolutions and
the 16-bit little-endian last-crank-event time. -/
def cadenceFrame (revs time : Nat) : List Nat :=
  [2, revs % 256, revs / 256 % 256, time % 256, time / 256 % 256]

/-! ## Heart rate monitor (`peloterm/devices/heart_rate.py`,
class `HeartRateDevice`) -/

/-- The parts of `HeartRateDevice` state touched by
`handle_heart_rate`: the cached current value and whether a
`data_callback` is configured. -/
structure HeartRateDevice where
  current_value : Option Nat
  has_callback : Bool
  deriving DecidableEq, Repr

/-- `handle_heart_rate`: bit 0 of the flags byte selects the 16-bit
little-endian value in `data[1:3]` (a slice, safe when short) versus the
8-bit value `data[1]` (raises `IndexError` when absent).  There is no
exception guard in the source, so errors propagate. -/
def HeartRateDevice.handle_heart_rate (data : List Nat) (s : HeartRateDevice) :
    Except PyErr (HeartRateDevice × List (String × PyVal)) :=
  match data.head? with
  | Option.none => .error .indexError
  | some flags =>
    if flags % 2 = 1 then
      let heart_rate := intFromBytesLE ((data.drop 1).take 2)
      .ok ({ s with current_value := some heart_rate },
           if s.has_callback then [("heart_rate", PyVal.int heart_rate)] else [])
    else
      match (data.drop 1).head? with
      | Option.none => .error .indexError
      | some heart_rate =>
        .ok ({ s with current_value := some heart_rate },
             if s.has_callback then [("heart_rate", PyVal.int heart_rate)] else [])

/-- `HeartRateDevice.get_available_metrics()` always reports
`heart_rate`, whether or not a notification has arrived. -/
def HeartRateDevice.get_available_metrics : List String := ["heart_rate"]

/-- Environment of one `HeartRateDevice.connect()` call: whether
discovery finds a device, and whether `BleakClient.connect` and
`start_notify` complete without raising. -/
structure HRConnectEnv where
  device_found : Bool
  client_connect_ok : Bool
  start_notify_ok : Bool
  deriving DecidableEq, Repr

/-- `HeartRateDevice.connect()`: discovery failure returns `False`; a
raising connect or subscribe is caught and returns `False`; on success,
if a data callback is configured it is invoked once with
`("heart_rate", 0)` — before any notification, since no suspension
point separates `start_notify` returning and the callback call — and
`True` is returned.  The second component lists the callback invocations
made by `connect` itself. -/
def HeartRateDevice.connect (env : HRConnectEnv) (has_callback : Bool) :
    Bool × List (String × PyVal) :=
  if ¬env.device_found then (false, [])
  else if ¬env.client_connect_ok then (false, [])
  else if ¬env.start_notify_ok then (false, [])
  else (true, if has_callback then [("heart_rate", PyVal.int 0)] else [])

/-! ## Speed/cadence connect sequence
(`SpeedCadenceDevice._robust_connect` and `SpeedCadenceDevice.connect`) -/

/-- Outcome of one iteration of the `_robust_connect` attempt loop, as
decided by the BLE environment: `success` (some notification path was
enabled, `return True`), `noServices` (service list empty,
`return False`), `connectTimeout` (the 10s `wait_for` fired, `continue`),
`linkDown` (`is_connected` false after connect, `continue`),
`noNotifications` (no notification could be enabled, fall through to
the next attempt), or `raised` (an exception escaped the attempt body).
-/
inductive AttemptOutcome where
  | success
  | noServices
  | connectTimeout
  | linkDown
  | noNotifications
  | raised
  deriving DecidableEq, Repr

/-- The attempt loop of `_robust_connect`: `attempt` is the current loop
index and the second argument the number of iterations left in
`range(max_attempts)`.  Returns the overall result (`Except` because the
last attempt re-raises its exception), the number of loop iterations
executed, and the list of backoff sleeps performed (each iteration after
the first sleeps `_connection_retry_delay = 1.0` seconds before
retrying); falling off the loop returns `False`. -/
def robustConnectGo (env : Nat → AttemptOutcome) (max_attempts : Nat) :
    Nat → Nat → Except Unit Bool × Nat × List Rat
  | _, 0 => (.ok false, 0, [])
  | attempt, rem + 1 =>
    let delays : List Rat := if 0 < attempt then [1] else []
    match env attempt with
    | .success => (.ok true, 1, delays)
    | .noServices => (.ok false, 1, delays)
    | .raised =>
      if attempt = max_attempts - 1 then (.error (), 1, delays)
      else
        let r := robustConnectGo env max_attempts (attempt + 1) rem
        (r.1, r.2.1 + 1, delays ++ r.2.2)
    | _ =>
      let r := robustConnectGo env max_attempts (attempt + 1) rem
      (r.1, r.2.1 + 1, delays ++ r.2.2)

/-- `SpeedCadenceDevice._robust_connect()`:
`for attempt in range(3)` with `_max_connection_attempts = 3`. -/
def robust_connect (env : Nat → AttemptOutcome) : Except Unit Bool × Nat × List Rat :=
  robustConnectGo env 3 0 3

/-- Environment of one `SpeedCadenceDevice.connect()` call: whether the
initial scan finds the device, and the per-attempt outcomes inside
`_robust_connect`. -/
structure SCConnectEnv where
  device_found : Bool
  attempts : Nat → AttemptOutcome

/-- `SpeedCadenceDevice.connect()`: scan failure returns `False`;
otherwise `_robust_connect` runs inside a `try`/`except` that converts
any escaped exception into `False`, and its boolean result is returned
unchanged. -/
def SpeedCadenceDevice.connect (env : SCConnectEnv) : Bool :=
  if ¬env.device_found then false
  else
    match (robust_connect env.attempts).1 with
    | .ok b => b
    | .error _ => false

/-! ## Controller shutdown (`peloterm/controller.py`,
`DeviceController.disconnect_devices`) -/

/-- `asyncio.gather(*tasks)` with the default
`return_exceptions=False`, applied to already-determined task results:
every task in the list runs to completion (a failing task does not
cancel its siblings), and the first exception in the list is propagated
to the awaiter; with no exception the gather resolves normally. -/
def gather {E : Type} (tasks : List (Except E Unit)) : Except E Unit :=
  match tasks.filterMap (fun t => match t with | .error e => some e | .ok _ => none) with
  | [] => .ok ()
  | e :: _ => .error e

/-- Disconnect results of the sessions a controller may hold
(`heart_rate_device`, `trainer_device`, `speed_cadence_device`);
`Option.none` means the controller never created that session. -/
structure ShutdownEnv (E : Type) where
  hr_disconnect : Option (Except E Unit)
  trainer_disconnect : Option (Except E Unit)
  sc_disconnect : Option (Except E Unit)

/-- The disconnect task list built by `disconnect_devices`: one task per
existing session, in source order. -/
def ShutdownEnv.tasks {E : Type} (env : ShutdownEnv E) : List (Except E Unit) :=
  env.hr_disconnect.toList ++ env.trainer_disconnect.toList ++ env.sc_disconnect.toList

/-- `DeviceController.disconnect_devices()`: clears `running`, then
awaits `asyncio.gather` over every existing session's `disconnect()`.
There is no exception handling here, so the gather's exception (if any)
propagates to the caller. -/
def disconnect_devices {E : Type} (env : ShutdownEnv E) : Except E Unit :=
  gather env.tasks

/-! ## Controller metric bookkeeping (`peloterm/controller.py`,
`DeviceController.auto_discover_connect` lines 223-279 and
`DeviceController.run`) -/

/-- A connected session as the controller sees it: the underlying BLE
device name, the list returned by `get_available_metrics()`, and the
set of metric names the session has ever passed to its data callback. -/
structure Session where
  name : String
  reported : List String
  emitted : List String
  deriving DecidableEq, Repr

/-- `available_metrics.extend([m for m in ms if m not in available_metrics])`:
the comprehension is evaluated against the pre-extend list, then
appended. -/
def extendNew (avail ms : List String) : List String :=
  avail ++ ms.filter (fun m => ¬ m ∈ avail)

/-- Python `needle == hay[:len(needle)]`: character-list comparison used
to implement substring containment. -/
def startsWithChars : List Char → List Char → Bool
  | [], _ => true
  | _ :: _, [] => false
  | a :: as, b :: bs => a = b && startsWithChars as bs

/-- Python `needle in hay` on character lists. -/
def hasSubChars (needle : List Char) : List Char → Bool
  | [] => needle.isEmpty
  | c :: rest => startsWithChars needle (c :: rest) || hasSubChars needle rest

/-- Python `str.lower()` over the characters of a string. -/
def lowerChars (cs : List Char) : List Char := cs.map Char.toLower

/-- Membership test used by the Wahoo fallback in
`auto_discover_connect`: `"wahoo" in device.device.name.lower() and
"cadence" in device.device.name.lower()`. -/
def isWahooCadenceName (name : String) : Bool :=
  hasSubChars "wahoo".toList (lowerChars name.toList) &&
  hasSubChars "cadence".toList (lowerChars name.toList)

/-- The metric-initialization phase at the end of
`auto_discover_connect`: fold every connected session's reported
metrics (filtered by the requested `metric_types`, `Option.none` meaning no
filter) into `available_metrics`; if that leaves the list empty but some
connected device's name reads as a Wahoo cadence sensor, append
`"cadence"` anyway. -/
def autoDiscoverMetrics (sessions : List Session)
    (metric_types : Option (List String)) : List String :=
  let avail := sessions.foldl
    (fun acc s => extendNew acc (s.reported.filter
      (fun m => match metric_types with
                | Option.none => true
                | some ts => m ∈ ts)))
    []
  if avail = [] ∧ sessions.any (fun s => isWahooCadenceName s.name) then
    avail ++ ["cadence"]
  else avail

/-- One pass of the `DeviceController.run` polling loop: for each
connected device in turn, extend `available_metrics` with the newly
reported metric names. -/
def runLoopScan (sessions : List Session) (avail : List String) : List String :=
  sessions.foldl (fun acc s => extendNew acc s.reported) avail

/-! ## Listening mode (`peloterm/cli.py`,
`listen_for_devices_connection`) -/

/-- Why the listening loop stopped: every configured device connected
(also covers the vacuous `total_devices = 0` case), the caller-supplied
timeout elapsed, or the shutdown flag was observed set. -/
inductive ListenExit where
  | allConnected
  | timedOut
  | cancelled
  deriving DecidableEq, Repr

/-- Environment of `listen_for_devices_connection`, indexed by loop
iteration: the shutdown flag read in the `while` condition, the elapsed
event-loop time read at the top of the body, and the result of
`controller.connect_configured_devices` — its truthiness and the length
of `controller.connected_devices` afterwards.

Modelled from the spec: `DeviceController.connect_configured_devices`
is called here but its definition is not part of the sources at hand
(only this caller is); per §4.3 it re-attempts connection for any
still-missing configured device, so it is abstracted as an oracle
giving, per iteration, whether it reported progress and the resulting
connected count. -/
structure ListenEnv where
  shutdown : Nat → Bool
  elapsed : Nat → Rat
  connect_ok : Nat → Bool
  count_after : Nat → Nat

/-- The `while` loop of `listen_for_devices_connection`, with `fuel`
bounding the number of iterations (`Option.none` = fuel exhausted before the
loop exited).  On a normal exit it returns the exit reason, the final
`connected_count`, and the list of `asyncio.sleep` durations performed
(the loop sleeps 2 seconds at the end of every non-exiting iteration).
-/
def listenGo (env : ListenEnv) (timeout : Rat) (total : Nat) :
    Nat → Nat → Nat → Option (ListenExit × Nat × List Rat)
  | 0, _, _ => Option.none
  | fuel + 1, i, count =>
    if count < total then
      if env.shutdown i then some (.cancelled, count, [])
      else if timeout < env.elapsed i then some (.timedOut, count, [])
      else
        let count' := if env.connect_ok i then env.count_after i else count
        if env.connect_ok i ∧ total ≤ count' then some (.allConnected, count', [])
        else
          match listenGo env timeout total fuel (i + 1) count' with
          | Option.none => Option.none
          | some (r, c, sleeps) => some (r, c, (2 : Rat) :: sleeps)
    else some (.allConnected, count, [])

/-- `listen_for_devices_connection`: run the loop from iteration 0 with
`connected_count = 0`; the function's return value is
`connected_count > 0`. -/
def listen_for_devices_connection (env : ListenEnv) (timeout : Rat)
    (total fuel : Nat) : Option (Bool × ListenExit × Nat × List Rat) :=
  match listenGo env timeout total fuel 0 0 with
  | Option.none => Option.none
  | some (r, c, sleeps) => some (decide (0 < c), r, c, sleeps)

/-! ## Helper lemmas -/

theorem alookup_map_keyed {α β : Type} (f : String → α → β)
    (l : List (String × α)) (m : String) :
    alookup (l.map fun p => (p.1, f p.1 p.2)) m = (alookup l m).map (f m) := by
  induction l with
  | nil => rfl
  | cons p rest ih =>
    obtain ⟨k, v⟩ := p
    by_cases h : k = m
    · subst h; simp [alookup]
    · simp [alookup, h, ih]

theorem roundHalfEven_intCast (i : Int) : roundHalfEven (i : Rat) = i := by
  unfold roundHalfEven
  norm_num

/-! ## C1: asymmetric staleness policy of the Metric Buffer -/

/-- C1: for every metric kind ever stored in the buffer,
`get_processed_metrics` applies the asymmetric staleness policy: when
the time since the kind's last update exceeds `stale_threshold`, the
returned value is `0` for `"cadence"` and the last stored value for any
other kind; when not stale, the last stored value is returned. -/
theorem c1_stale_policy (dp : DataProcessor) (m : String) (v : PyVal) (t : Rat)
    (hm : alookup dp.current_values m = some v) :
    (dp.stale_threshold < t - (alookup dp.last_update_time m).getD 0 →
        alookup (dp.get_processed_metrics t) m =
          some (if m = "cadence" then PyVal.int 0 else v)) ∧
    (¬ dp.stale_threshold < t - (alookup dp.last_update_time m).getD 0 →
        alookup (dp.get_processed_metrics t) m = some v) := by
  unfold DataProcessor.get_processed_metrics
  rw [alookup_map_keyed, hm]
  unfold DataProcessor.processedValue
  constructor
  · intro h; simp [h]
  · intro h; simp [h]

/-- Buffer state after `update_metric("cadence", 90)` at time 0. -/
def dpCadence90 : DataProcessor :=
  { current_values := [("cadence", PyVal.int 90)],
    last_update_time := [("cadence", 0)], stale_threshold := 2 }

/-- Buffer state after `update_metric("power", 90)` at time 0. -/
def dpPower90 : DataProcessor :=
  { current_values := [("power", PyVal.int 90)],
    last_update_time := [("power", 0)], stale_threshold := 2 }

theorem roundHalfEven_ninety : roundHalfEven (90 : Rat) = 90 := by
  simpa using roundHalfEven_intCast 90

theorem update_metric_cadence90 :
    DataProcessor.new.update_metric "cadence" (PyVal.int 90) 0 = .ok dpCadence90 := by
  simp only [DataProcessor.update_metric, DataProcessor.new, pyFloat]
  rw [if_neg (by decide)]
  simp [aset, roundHalfEven_ninety, dpCadence90, Except.map]

theorem update_metric_power90 :
    DataProcessor.new.update_metric "power" (PyVal.int 90) 0 = .ok dpPower90 := by
  simp only [DataProcessor.update_metric, DataProcessor.new, pyFloat]
  rw [if_neg (by decide)]
  simp [aset, roundHalfEven_ninety, dpPower90, Except.map]

/-- Witness for C1: `update_metric("cadence", 90)` at time 0 followed by
a query at time 2.5 (past the 2-second threshold) returns 0, while the
same sequence for `"power"` returns 90 unchanged. -/
theorem c1_stale_policy_witness :
    DataProcessor.new.update_metric "cadence" (PyVal.int 90) 0 = .ok dpCadence90 ∧
    alookup (dpCadence90.get_processed_metrics (5/2)) "cadence" = some (PyVal.int 0) ∧
    DataProcessor.new.update_metric "power" (PyVal.int 90) 0 = .ok dpPower90 ∧
    alookup (dpPower90.get_processed_metrics (5/2)) "power" = some (PyVal.int 90) := by
  refine ⟨update_metric_cadence90, ?_, update_metric_power90, ?_⟩
  · have h := (c1_stale_policy dpCadence90 "cadence" (PyVal.int 90) (5/2) rfl).1
      (by norm_num [alookup, dpCadence90])
    simpa using h
  · have h := (c1_stale_policy dpPower90 "power" (PyVal.int 90) (5/2) rfl).1
      (by norm_num [alookup, dpPower90])
    simpa using h

/-! ## CSC frame processing lemmas -/

theorem intFromBytesLE_pair (r : Nat) (h : r < 65536) :
    intFromBytesLE [r % 256, r / 256 % 256] = r := by
  simp [intFromBytesLE]
  omega

/-- Processing a cadence-only frame with no stored crank snapshot stores
the raw readings and emits nothing. -/
theorem csc_first_frame (s : SpeedCadenceDevice) (r1 t1 : Nat)
    (h1 : r1 < 65536) (ht1 : t1 < 65536) (hs : s.last_crank_time = Option.none) :
    SpeedCadenceDevice.handle_csc_measurement (cadenceFrame r1 t1) s =
      ({ s with last_crank_time := some t1, last_crank_revs := some r1,
                received_data := true }, []) := by
  simp [SpeedCadenceDevice.handle_csc_measurement, SpeedCadenceDevice.csc_body,
    cadenceFrame, hs]
  rw [intFromBytesLE_pair r1 h1, intFromBytesLE_pair t1 ht1]
  exact ⟨rfl, rfl⟩

/-- Processing a cadence-only frame with a stored crank snapshot:
the event time is wraparound-corrected against the stored (possibly
already corrected) value; with a positive time delta the
wraparound-corrected revolution delta yields a cadence in RPM whose
half-even rounding is emitted and cached; with a zero or negative delta
nothing is emitted; in all cases the corrected snapshot is stored. -/
theorem csc_second_frame (s : SpeedCadenceDevice) (lastT lastR r2 t2 : Nat)
    (hs : s.last_crank_time = some lastT) (hr : s.last_crank_revs = some lastR)
    (h2 : r2 < 65536) (ht2 : t2 < 65536) :
    SpeedCadenceDevice.handle_csc_measurement (cadenceFrame r2 t2) s =
      (let cet : Nat := if t2 < lastT then t2 + 65536 else t2
       let rd : Int := (r2 : Int) - (lastR : Int)
       let rev_diff : Int := if rd < 0 then rd + 65536 else rd
       let cadence : Rat := ((rev_diff : Rat) * 60) / (((cet : Rat) - (lastT : Rat)) / 1024)
       if lastT < cet then
         ({ s with
            cadence_value := some (PyVal.int (roundHalfEven cadence)),
            available_metrics :=
              if "cadence" ∈ s.available_metrics then s.available_metrics
              else s.available_metrics ++ ["cadence"],
            last_crank_time := some cet,
            last_crank_revs := some r2,
            received_data := true },
          if s.has_callback then [("cadence", PyVal.int (roundHalfEven cadence))] else [])
       else
         ({ s with last_crank_time := some cet, last_crank_revs := some r2,
                   received_data := true }, [])) := by
  simp [SpeedCadenceDevice.handle_csc_measurement, SpeedCadenceDevice.csc_body,
    cadenceFrame, hs, hr]
  rw [intFromBytesLE_pair r2 h2, intFromBytesLE_pair t2 ht2]
  have hcast : (if t2 < lastT then (t2 : Rat) + 65536 else (t2 : Rat)) =
      (((if t2 < lastT then t2 + 65536 else t2 : Nat)) : Rat) := by
    split_ifs <;> push_cast <;> ring
  rw [hcast]
  simp only [Nat.cast_lt]
  split_ifs <;> rfl

theorem roundHalfEven_of_lt_half (q : Rat) (n : Int)
    (hl : (n : Rat) ≤ q) (hu : q < (n : Rat) + 1/2) : roundHalfEven q = n := by
  have hf : ⌊q⌋ = n := Int.floor_eq_iff.mpr ⟨hl, by linarith⟩
  simp only [roundHalfEven, hf]
  rw [if_pos (by linarith)]

theorem roundHalfEven_of_gt_half (q : Rat) (n : Int)
    (hl : (n : Rat) + 1/2 < q) (hu : q < (n : Rat) + 1) : roundHalfEven q = n + 1 := by
  have hf : ⌊q⌋ = n := Int.floor_eq_iff.mpr ⟨by linarith, hu⟩
  simp only [roundHalfEven, hf]
  rw [if_neg (by linarith), if_pos (by linarith)]

/-! ## C2: cadence computation over consecutive CSC frames -/

/-- C2 (amended): the first cadence-bearing frame after connecting emits
no cadence sample; for the next frame, with both 16-bit counters
wraparound-corrected by adding 65536 when the later raw value precedes
the earlier one, a positive corrected event-time delta makes the handler
emit the half-even integer rounding of
`(Δcrank_revs mod 65536) * 60 / (Δevent_time / 1024)` RPM (the claim's
exact quotient is computed, but what is forwarded is its `round(...)`),
and a non-positive delta emits nothing. -/
theorem c2_cadence_formula (r1 t1 r2 t2 : Nat)
    (h1 : r1 < 65536) (ht1 : t1 < 65536) (h2 : r2 < 65536) (ht2 : t2 < 65536) :
    ((SpeedCadenceDevice.handle_csc_measurement (cadenceFrame r1 t1)
        SpeedCadenceDevice.new).2 = []) ∧
    (t1 < (if t2 < t1 then t2 + 65536 else t2) →
      (SpeedCadenceDevice.handle_csc_measurement (cadenceFrame r2 t2)
        (SpeedCadenceDevice.handle_csc_measurement (cadenceFrame r1 t1)
          SpeedCadenceDevice.new).1).2 =
      [("cadence", PyVal.int (roundHalfEven
        (((((r2 : Int) - (r1 : Int)) % 65536 : Int) : Rat) * 60 /
          ((((if t2 < t1 then t2 + 65536 else t2 : Nat) : Rat) - (t1 : Rat)) / 1024))))]) ∧
    (¬ t1 < (if t2 < t1 then t2 + 65536 else t2) →
      (SpeedCadenceDevice.handle_csc_measurement (cadenceFrame r2 t2)
        (SpeedCadenceDevice.handle_csc_measurement (cadenceFrame r1 t1)
          SpeedCadenceDevice.new).1).2 = []) := by
  have hfirst := csc_first_frame SpeedCadenceDevice.new r1 t1 h1 ht1 rfl
  have h1a : (SpeedCadenceDevice.handle_csc_measurement (cadenceFrame r1 t1)
      SpeedCadenceDevice.new).1 =
      { SpeedCadenceDevice.new with
        last_crank_time := some t1
        last_crank_revs := some r1
        received_data := true } := by rw [hfirst]
  have h1b : (SpeedCadenceDevice.handle_csc_measurement (cadenceFrame r1 t1)
      SpeedCadenceDevice.new).2 = ([] : List (String × PyVal)) := by rw [hfirst]
  have hsecond := csc_second_frame
    ({ SpeedCadenceDevice.new with
       last_crank_time := some t1
       last_crank_revs := some r1
       received_data := true })
    t1 r1 r2 t2 rfl rfl h2 ht2
  have hmod : (if (r2 : Int) - (r1 : Int) < 0 then (r2 : Int) - (r1 : Int) + 65536
      else (r2 : Int) - (r1 : Int)) = ((r2 : Int) - (r1 : Int)) % 65536 := by
    split_ifs <;> omega
  refine ⟨h1b, ?_, ?_⟩
  · intro h
    rw [h1a, hsecond]
    simp only [if_pos h]
    simp [SpeedCadenceDevice.new]
    congr 1
    congr 1
    rcases Nat.lt_or_ge r2 r1 with hlt | hge
    · rw [if_pos hlt]
      have hm : ((r2 : Int) - (r1 : Int)) % 65536 = (r2 : Int) - (r1 : Int) + 65536 := by
        omega
      rw [hm]
      push_cast
      ring
    · rw [if_neg (Nat.not_lt.mpr hge)]
      have hm : ((r2 : Int) - (r1 : Int)) % 65536 = (r2 : Int) - (r1 : Int) := by
        omega
      rw [hm]
      push_cast
      ring
  · intro h
    rw [h1a, hsecond]
    simp only [if_neg h]

/-- C2 counterexample: consecutive cadence frames with crank counters
0 then 1 and event times 0 then 1000 make the handler emit the integer
61, while the claimed formula `(Δcrank_revs mod 65536) * 60 /
(Δevent_time / 1024)` evaluates to 61.44 RPM — the emitted cadence is
`round` of the formula, not the formula itself. -/
theorem c2_counterexample :
    (SpeedCadenceDevice.handle_csc_measurement (cadenceFrame 1 1000)
      (SpeedCadenceDevice.handle_csc_measurement (cadenceFrame 0 0)
        SpeedCadenceDevice.new).1).2 = [("cadence", PyVal.int 61)] ∧
    ((1 * 60 : Rat) / ((1000 : Rat) / 1024) ≠ (61 : Rat)) := by
  constructor
  · have hf := csc_first_frame SpeedCadenceDevice.new 0 0 (by norm_num) (by norm_num) rfl
    have h1a : (SpeedCadenceDevice.handle_csc_measurement (cadenceFrame 0 0)
        SpeedCadenceDevice.new).1 =
        { SpeedCadenceDevice.new with
          last_crank_time := some 0
          last_crank_revs := some 0
          received_data := true } := by rw [hf]
    rw [h1a]
    have hs := csc_second_frame
      ({ SpeedCadenceDevice.new with
         last_crank_time := some 0
         last_crank_revs := some 0
         received_data := true })
      0 0 1 1000 rfl rfl (by norm_num) (by norm_num)
    rw [hs]
    simp [SpeedCadenceDevice.new]
    exact roundHalfEven_of_lt_half _ 61 (by norm_num) (by norm_num)
  · norm_num

/-- Witness for C2: crank counter 0 → 3 over event times 0 → 2048
(exactly two seconds) emits 90 RPM, and the first frame emitted
nothing. -/
theorem c2_cadence_formula_witness :
    (SpeedCadenceDevice.handle_csc_measurement (cadenceFrame 0 0)
      SpeedCadenceDevice.new).2 = [] ∧
    (SpeedCadenceDevice.handle_csc_measurement (cadenceFrame 3 2048)
      (SpeedCadenceDevice.handle_csc_measurement (cadenceFrame 0 0)
        SpeedCadenceDevice.new).1).2 = [("cadence", PyVal.int 90)] := by
  have h := c2_cadence_formula 0 0 3 2048 (by norm_num) (by norm_num) (by norm_num)
    (by norm_num)
  refine ⟨h.1, ?_⟩
  rw [h.2.1 (by norm_num)]
  norm_num
  exact roundHalfEven_ninety

/-! ## C3: Heart Rate Measurement value width -/

/-- C3 (amended): byte 0 bit 0 selects the value width — clear means
the 8-bit value at offset 1, set means the 16-bit little-endian value at
offset 1.  Flags `0x00` with data byte 72 decodes to 72 BPM, and the
16-bit packet `[0x01, 0x2C, 0x01]` decodes to 300 BPM (the claim's
`[0x01, 0x2C, 0x00]` decodes to 44). -/
theorem c3_heart_rate_width (data : List Nat) (flags : Nat) (s : HeartRateDevice)
    (hd : data.head? = some flags) :
    (flags % 2 = 1 →
      HeartRateDevice.handle_heart_rate data s =
        .ok ({ s with current_value := some (intFromBytesLE ((data.drop 1).take 2)) },
             if s.has_callback then
               [("heart_rate", PyVal.int (intFromBytesLE ((data.drop 1).take 2)))]
             else [])) ∧
    (flags % 2 = 0 → ∀ b, (data.drop 1).head? = some b →
      HeartRateDevice.handle_heart_rate data s =
        .ok ({ s with current_value := some b },
             if s.has_callback then [("heart_rate", PyVal.int b)] else [])) ∧
    (HeartRateDevice.handle_heart_rate [0, 72] ⟨Option.none, true⟩ =
      .ok (⟨some 72, true⟩, [("heart_rate", PyVal.int 72)])) ∧
    (HeartRateDevice.handle_heart_rate [1, 44, 1] ⟨Option.none, true⟩ =
      .ok (⟨some 300, true⟩, [("heart_rate", PyVal.int 300)])) := by
  refine ⟨?_, ?_, rfl, rfl⟩
  · intro h
    simp [HeartRateDevice.handle_heart_rate, hd, h]
  · intro h b hb
    have h1 : ¬ flags % 2 = 1 := by omega
    have hb2 : data[1]? = some b := by simpa using hb
    simp [HeartRateDevice.handle_heart_rate, hd, h1, hb2]

/-- C3 counterexample: the spec's 16-bit example bytes
`[0x01, 0x2C, 0x00]` decode to 44 BPM (little-endian `0x002C`), not the
claimed 300 BPM. -/
theorem c3_counterexample :
    HeartRateDevice.handle_heart_rate [1, 44, 0] ⟨Option.none, true⟩ =
      .ok (⟨some 44, true⟩, [("heart_rate", PyVal.int 44)]) ∧ (44 : Nat) ≠ 300 :=
  ⟨rfl, by decide⟩

/-- Witness for C3: both concrete decodes obtained from the width
theorem applied at `[0x00, 72]`. -/
theorem c3_heart_rate_width_witness :
    (HeartRateDevice.handle_heart_rate [0, 72] ⟨Option.none, true⟩ =
      .ok (⟨some 72, true⟩, [("heart_rate", PyVal.int 72)])) ∧
    (HeartRateDevice.handle_heart_rate [1, 44, 1] ⟨Option.none, true⟩ =
      .ok (⟨some 300, true⟩, [("heart_rate", PyVal.int 300)])) := by
  have h := c3_heart_rate_width [0, 72] 0 ⟨Option.none, true⟩ rfl
  exact ⟨h.2.2.1, h.2.2.2⟩

/-! ## C4: decoder behaviour on malformed input -/

/-- C4 (amended): the CSC Measurement handler never lets an exception
escape — its body can only raise on an empty payload, before any state
mutation, and the surrounding `except` then returns with the state
unchanged and no callback; the Heart Rate handler, which has no
exception guard, returns normally exactly when the payload is non-empty
and either the 16-bit flag is set or a second byte exists (otherwise
`data[0]`/`data[1]` raises `IndexError`). -/
theorem c4_decoder_no_raise :
    (∀ (data : List Nat) (s : SpeedCadenceDevice), data ≠ [] →
        ∃ r, s.csc_body data = .ok r) ∧
    (∀ s : SpeedCadenceDevice,
        SpeedCadenceDevice.handle_csc_measurement [] s = (s, [])) ∧
    (∀ (data : List Nat) (s : HeartRateDevice),
        (∃ r, HeartRateDevice.handle_heart_rate data s = .ok r) ↔
          (data ≠ [] ∧ ((data.head?.getD 0) % 2 = 1 ∨ 2 ≤ data.length))) := by
  refine ⟨?_, ?_, ?_⟩
  · intro data s hne
    obtain ⟨lct, lcr, cv, am, rd, hc⟩ := s
    cases data with
    | nil => exact absurd rfl hne
    | cons d rest =>
      cases lct <;> cases lcr <;>
        (simp only [SpeedCadenceDevice.csc_body, List.head?_cons]
         split_ifs <;> exact ⟨_, rfl⟩)
  · intro s
    rfl
  · intro data s
    cases data with
    | nil =>
      simp [HeartRateDevice.handle_heart_rate]
    | cons d rest =>
      by_cases h : d % 2 = 1
      · simp [HeartRateDevice.handle_heart_rate, h]
      · cases rest with
        | nil =>
          simp [HeartRateDevice.handle_heart_rate, h]
        | cons b rest2 =>
          simp [HeartRateDevice.handle_heart_rate, h]

/-- C4 counterexample: an empty Heart Rate Measurement payload raises
`IndexError` at `data[0]` — the handler does not silently drop it. -/
theorem c4_counterexample :
    HeartRateDevice.handle_heart_rate [] ⟨Option.none, true⟩ =
      .error .indexError := rfl

/-- Witness for C4: a one-byte CSC frame is handled without error, and
the one-byte 8-bit-flagged heart-rate frame `[0x08]` has no normal
result. -/
theorem c4_decoder_no_raise_witness :
    (∃ r, SpeedCadenceDevice.new.csc_body [2] = .ok r) ∧
    ¬ (∃ r, HeartRateDevice.handle_heart_rate [8] ⟨Option.none, true⟩ = .ok r) := by
  constructor
  · exact c4_decoder_no_raise.1 [2] SpeedCadenceDevice.new (by decide)
  · intro hex
    have h := (c4_decoder_no_raise.2.2 [8] ⟨Option.none, true⟩).mp hex
    simp at h

/-! ## C5: rounding at buffering time versus decode time -/

/-- Every metric sample the CSC handler forwards to the data callback is
an integer cadence value (the handler rounds before forwarding). -/
theorem csc_events_are_ints (data : List Nat) (s : SpeedCadenceDevice) :
    (SpeedCadenceDevice.handle_csc_measurement data s).2 = [] ∨
    ∃ z, (SpeedCadenceDevice.handle_csc_measurement data s).2 =
      [("cadence", PyVal.int z)] := by
  obtain ⟨lct, lcr, cv, am, rd, hc⟩ := s
  cases data with
  | nil => exact Or.inl rfl
  | cons d rest =>
    cases lct <;> cases lcr <;>
      (simp only [SpeedCadenceDevice.handle_csc_measurement,
         SpeedCadenceDevice.csc_body, List.head?_cons]
       split_ifs <;> simp)

/-- C5 (amended): `update_metric` applies the canonical rounding at
buffering time and stamps `last_update_time = now`: a numeric speed is
stored as `round(float(v), 1)` (one decimal), any other numeric kind as
`round(float(v))` (integer); a non-numeric value is stored unchanged for
non-speed kinds (and `None` for speed), while a non-`None` non-numeric
speed raises out of `update_metric`.  On the decoder side the CSC
handler does not forward un-rounded values: every cadence sample it
emits is already an integer. -/
theorem c5_rounding_at_buffer (dp : DataProcessor) (name : String) (v : PyVal)
    (q : Rat) (now : Rat) :
    (pyFloat v = .ok q → name = "speed" →
      dp.update_metric name v now = .ok
        { dp with
          current_values := aset dp.current_values name
            (PyVal.float ((roundHalfEven (10 * q) : Rat) / 10)),
          last_update_time := aset dp.last_update_time name now }) ∧
    (pyFloat v = .ok q → name ≠ "speed" →
      dp.update_metric name v now = .ok
        { dp with
          current_values := aset dp.current_values name (PyVal.int (roundHalfEven q)),
          last_update_time := aset dp.last_update_time name now }) ∧
    (∀ e, pyFloat v = .error e → name ≠ "speed" →
      dp.update_metric name v now = .ok
        { dp with
          current_values := aset dp.current_values name v,
          last_update_time := aset dp.last_update_time name now }) ∧
    (v = PyVal.none → name = "speed" →
      dp.update_metric name v now = .ok
        { dp with
          current_values := aset dp.current_values name v,
          last_update_time := aset dp.last_update_time name now }) ∧
    (∀ e, pyFloat v = .error e → v ≠ PyVal.none → name = "speed" →
      dp.update_metric name v now = .error e) ∧
    (∀ data s, (SpeedCadenceDevice.handle_csc_measurement data s).2 = [] ∨
      ∃ z, (SpeedCadenceDevice.handle_csc_measurement data s).2 =
        [("cadence", PyVal.int z)]) := by
  refine ⟨?_, ?_, ?_, ?_, ?_, csc_events_are_ints⟩
  · intro hq hname
    subst hname
    have hvn : v ≠ PyVal.none := by
      rintro rfl; simp [pyFloat] at hq
    simp only [DataProcessor.update_metric]
    rw [if_pos (⟨trivial, hvn⟩ : True ∧ v ≠ PyVal.none), hq]
    rfl
  · intro hq hname
    simp only [DataProcessor.update_metric]
    rw [if_neg (fun h => hname h.1), hq]
    rfl
  · intro e he hname
    simp only [DataProcessor.update_metric]
    rw [if_neg (fun h => hname h.1), he]
    rfl
  · intro hv hname
    subst hname
    subst hv
    simp only [DataProcessor.update_metric]
    rw [if_neg (fun h => h.2 rfl)]
    rfl
  · intro e he hvn hname
    subst hname
    simp only [DataProcessor.update_metric]
    rw [if_pos (⟨trivial, hvn⟩ : True ∧ v ≠ PyVal.none), he]
    rfl

/-- C5 counterexample: for the frame pair (crank 0, time 0) then
(crank 1, time 2000), the CSC decoder forwards the integer 31, not the
un-rounded cadence 30.72 RPM — rounding is already applied at decode
time for cadence. -/
theorem c5_counterexample :
    (SpeedCadenceDevice.handle_csc_measurement (cadenceFrame 1 2000)
      (SpeedCadenceDevice.handle_csc_measurement (cadenceFrame 0 0)
        SpeedCadenceDevice.new).1).2 = [("cadence", PyVal.int 31)] ∧
    PyVal.int 31 ≠ PyVal.float ((1 * 60 : Rat) / ((2000 : Rat) / 1024)) := by
  constructor
  · have hf := csc_first_frame SpeedCadenceDevice.new 0 0 (by norm_num) (by norm_num) rfl
    have h1a : (SpeedCadenceDevice.handle_csc_measurement (cadenceFrame 0 0)
        SpeedCadenceDevice.new).1 =
        { SpeedCadenceDevice.new with
          last_crank_time := some 0
          last_crank_revs := some 0
          received_data := true } := by rw [hf]
    rw [h1a]
    have hs := csc_second_frame
      ({ SpeedCadenceDevice.new with
         last_crank_time := some 0
         last_crank_revs := some 0
         received_data := true })
      0 0 1 2000 rfl rfl (by norm_num) (by norm_num)
    rw [hs]
    simp [SpeedCadenceDevice.new]
    simpa using roundHalfEven_of_gt_half ((60 : Rat) / (2000 / 1024)) 30
      (by norm_num) (by norm_num)
  · decide

/-- Witness for C5: a 12.34 km/h speed sample is buffered as 12.3, and
the concrete CSC run from the C2 scenario forwards only integer cadence
samples. -/
theorem c5_rounding_at_buffer_witness :
    DataProcessor.new.update_metric "speed" (PyVal.float (617/50)) 0 =
      .ok { current_values := [("speed", PyVal.float (123/10))],
            last_update_time := [("speed", 0)], stale_threshold := 2 } ∧
    ((SpeedCadenceDevice.handle_csc_measurement [2] SpeedCadenceDevice.new).2 = [] ∨
      ∃ z, (SpeedCadenceDevice.handle_csc_measurement [2] SpeedCadenceDevice.new).2 =
        [("cadence", PyVal.int z)]) := by
  have h := c5_rounding_at_buffer DataProcessor.new "speed" (PyVal.float (617/50))
    (617/50) 0
  refine ⟨?_, h.2.2.2.2.2 [2] SpeedCadenceDevice.new⟩
  rw [h.1 rfl rfl]
  rw [show roundHalfEven (10 * (617/50 : Rat)) = 123 from
    roundHalfEven_of_lt_half _ 123 (by norm_num) (by norm_num)]
  norm_num [aset, DataProcessor.new]

/-! ## C6: connection attempt budget and backoff -/

theorem rcGo_attempts_le (env : Nat → AttemptOutcome) (m : Nat) :
    ∀ rem a, (robustConnectGo env m a rem).2.1 ≤ rem := by
  intro rem
  induction rem with
  | zero => intro a; simp [robustConnectGo]
  | succ n ih =>
    intro a
    simp only [robustConnectGo]
    cases henv : env a <;> simp only [henv]
    case success => simp
    case noServices => simp
    case connectTimeout => have := ih (a + 1); omega
    case linkDown => have := ih (a + 1); omega
    case noNotifications => have := ih (a + 1); omega
    case raised =>
      by_cases hlast : a = m - 1
      · rw [if_pos hlast]
        show (1 : Nat) ≤ n + 1
        omega
      · rw [if_neg hlast]
        have := ih (a + 1)
        show (robustConnectGo env m (a + 1) n).2.1 + 1 ≤ n + 1
        omega

theorem rcGo_delays (env : Nat → AttemptOutcome) (m : Nat) :
    ∀ rem a, (robustConnectGo env m a rem).2.2 =
      List.replicate ((robustConnectGo env m a rem).2.1 -
        (if a = 0 then 1 else 0)) (1 : Rat) := by
  intro rem
  induction rem with
  | zero => intro a; simp [robustConnectGo]
  | succ n ih =>
    intro a
    have hrep : ∀ c : Nat,
        ((if 0 < a then [(1 : Rat)] else []) ++ List.replicate c (1 : Rat)) =
          List.replicate (c + 1 - (if a = 0 then 1 else 0)) (1 : Rat) := by
      intro c
      rcases Nat.eq_zero_or_pos a with ha | ha
      · subst ha; simp
      · rw [if_pos ha, if_neg (by omega)]
        simp [List.replicate_succ]
    have hone :
        ((if 0 < a then [(1 : Rat)] else [])) =
          List.replicate (1 - (if a = 0 then 1 else 0)) (1 : Rat) := by
      rcases Nat.eq_zero_or_pos a with ha | ha
      · subst ha; simp
      · rw [if_pos ha, if_neg (by omega)]; simp
    simp only [robustConnectGo]
    cases henv : env a <;> simp only [henv]
    case success => exact hone
    case noServices => exact hone
    case connectTimeout =>
      have h' := ih (a + 1)
      rw [if_neg (by omega), Nat.sub_zero] at h'
      show (if 0 < a then [(1 : Rat)] else []) ++ (robustConnectGo env m (a + 1) n).2.2 =
        List.replicate ((robustConnectGo env m (a + 1) n).2.1 + 1 -
          (if a = 0 then 1 else 0)) (1 : Rat)
      rw [h']
      exact hrep _
    case linkDown =>
      have h' := ih (a + 1)
      rw [if_neg (by omega), Nat.sub_zero] at h'
      show (if 0 < a then [(1 : Rat)] else []) ++ (robustConnectGo env m (a + 1) n).2.2 =
        List.replicate ((robustConnectGo env m (a + 1) n).2.1 + 1 -
          (if a = 0 then 1 else 0)) (1 : Rat)
      rw [h']
      exact hrep _
    case noNotifications =>
      have h' := ih (a + 1)
      rw [if_neg (by omega), Nat.sub_zero] at h'
      show (if 0 < a then [(1 : Rat)] else []) ++ (robustConnectGo env m (a + 1) n).2.2 =
        List.replicate ((robustConnectGo env m (a + 1) n).2.1 + 1 -
          (if a = 0 then 1 else 0)) (1 : Rat)
      rw [h']
      exact hrep _
    case raised =>
      by_cases hlast : a = m - 1
      · rw [if_pos hlast]
        exact hone
      · rw [if_neg hlast]
        have h' := ih (a + 1)
        rw [if_neg (by omega), Nat.sub_zero] at h'
        show (if 0 < a then [(1 : Rat)] else []) ++ (robustConnectGo env m (a + 1) n).2.2 =
          List.replicate ((robustConnectGo env m (a + 1) n).2.1 + 1 -
            (if a = 0 then 1 else 0)) (1 : Rat)
        rw [h']
        exact hrep _

theorem rcGo_no_success (env : Nat → AttemptOutcome) (m : Nat) :
    ∀ rem a, (∀ j, a ≤ j → j < a + rem → env j ≠ .success) →
      (robustConnectGo env m a rem).1 = .ok false ∨
      (robustConnectGo env m a rem).1 = .error () := by
  intro rem
  induction rem with
  | zero => intro a _; left; rfl
  | succ n ih =>
    intro a h
    have hnext : ∀ j, a + 1 ≤ j → j < (a + 1) + n → env j ≠ .success := by
      intro j h1 h2
      exact h j (by omega) (by omega)
    simp only [robustConnectGo]
    cases henv : env a <;> simp only [henv]
    case success => exact absurd henv (h a le_rfl (by omega))
    case noServices => left; trivial
    case connectTimeout => exact ih (a + 1) hnext
    case linkDown => exact ih (a + 1) hnext
    case noNotifications => exact ih (a + 1) hnext
    case raised =>
      by_cases hlast : a = m - 1
      · rw [if_pos hlast]
        right
        rfl

      · rw [if_neg hlast]
        exact ih (a + 1) hnext

/-- C6: a session's connect sequence makes at most 3 connection
attempts; every backoff delay between consecutive attempts is exactly 1
second (one delay per attempt after the first); a failed discovery
returns `False`; an exception escaping `_robust_connect` (the last
attempt re-raises) is caught by `connect`, which returns `False`; and
when no attempt succeeds within the budget, `connect` returns `False` —
never an exception. -/
theorem c6_connect_retry_budget (env : SCConnectEnv) :
    (robust_connect env.attempts).2.1 ≤ 3 ∧
    (robust_connect env.attempts).2.2 =
      List.replicate ((robust_connect env.attempts).2.1 - 1) (1 : Rat) ∧
    (env.device_found = false → SpeedCadenceDevice.connect env = false) ∧
    (∀ e, (robust_connect env.attempts).1 = .error e →
      SpeedCadenceDevice.connect env = false) ∧
    ((∀ k, k < 3 → env.attempts k ≠ .success) →
      SpeedCadenceDevice.connect env = false) := by
  refine ⟨rcGo_attempts_le env.attempts 3 3 0, ?_, ?_, ?_, ?_⟩
  · have h := rcGo_delays env.attempts 3 3 0
    simpa [robust_connect] using h
  · intro h
    simp [SpeedCadenceDevice.connect, h]
  · intro e he
    by_cases hd : env.device_found
    · simp [SpeedCadenceDevice.connect, hd, he]
    · simp [SpeedCadenceDevice.connect, hd]
  · intro h
    have hns := rcGo_no_success env.attempts 3 3 0 (fun j h1 h2 => h j (by omega))
    by_cases hd : env.device_found
    · rcases hns with hok | herr
      · simp [SpeedCadenceDevice.connect, hd, robust_connect]
        rw [show (robustConnectGo env.attempts 3 0 3).1 = .ok false from hok]
      · simp [SpeedCadenceDevice.connect, hd, robust_connect]
        rw [show (robustConnectGo env.attempts 3 0 3).1 = .error () from herr]
    · simp [SpeedCadenceDevice.connect, hd]

/-- Witness for C6: with the BLE environment raising on every attempt
and the device found, `connect` returns `False`; exactly 3 attempts run
with two 1-second backoff sleeps, and `_robust_connect` ends in the
re-raised exception that `connect` swallows. -/
theorem c6_connect_retry_budget_witness :
    SpeedCadenceDevice.connect ⟨true, fun _ => .raised⟩ = false ∧
    (robust_connect (fun _ => AttemptOutcome.raised)).2.1 = 3 ∧
    (robust_connect (fun _ => AttemptOutcome.raised)).2.2 = [(1 : Rat), 1] ∧
    (robust_connect (fun _ => AttemptOutcome.raised)).1 = .error () := by
  have h := c6_connect_retry_budget ⟨true, fun _ => AttemptOutcome.raised⟩
  refine ⟨h.2.2.2.2 (fun k _ hcontra => AttemptOutcome.noConfusion hcontra), rfl, rfl, rfl⟩

/-! ## C7: controller shutdown and disconnect errors -/

theorem gather_eq_ok {E : Type} (ts : List (Except E Unit))
    (h : ∀ t ∈ ts, t = .ok ()) : gather ts = .ok () := by
  unfold gather
  have hnil : ts.filterMap
      (fun t => match t with | .error e => some e | .ok _ => none) = [] := by
    rw [List.filterMap_eq_nil_iff]
    intro t ht
    rw [h t ht]
  rw [hnil]

theorem gather_error_mem {E : Type} (ts : List (Except E Unit)) (e : E)
    (h : gather ts = .error e) : (Except.error e) ∈ ts := by
  unfold gather at h
  rcases hf : ts.filterMap
      (fun t => match t with | .error e => some e | .ok _ => none) with _ | ⟨e0, rest⟩
  · rw [hf] at h
    exact absurd h (by simp)
  · rw [hf] at h
    have he0 : e0 = e := by
      injection h with h'
    have hmem : e0 ∈ ts.filterMap
        (fun t => match t with | .error e => some e | .ok _ => none) := by
      rw [hf]; exact List.mem_cons_self _ _
    rcases List.mem_filterMap.mp hmem with ⟨t, ht, hft⟩
    cases t with
    | ok u => simp at hft
    | error e1 =>
      simp at hft
      subst hft
      subst he0
      exact ht

theorem gather_error_of_mem {E : Type} (ts : List (Except E Unit)) (e : E)
    (h : (Except.error e) ∈ ts) : ∃ e2, gather ts = .error e2 := by
  unfold gather
  rcases hf : ts.filterMap
      (fun t => match t with | .error e => some e | .ok _ => none) with _ | ⟨e0, rest⟩
  · exfalso
    have := (List.filterMap_eq_nil_iff.mp hf) _ h
    simp at this
  · rw [hf]
    exact ⟨e0, rfl⟩

/-- C7 (amended): `disconnect_devices` gathers one disconnect task per
existing session — every present session's disconnect is part of the
gather, so one failing disconnect does not remove the others from it —
and resolves normally exactly when no task raises; but an error raised
by one session's disconnect is not swallowed: it propagates out of
`disconnect_devices` as the gather's first exception. -/
theorem c7_shutdown_gather {E : Type} (env : ShutdownEnv E) :
    (∀ r, env.hr_disconnect = some r → r ∈ env.tasks) ∧
    (∀ r, env.trainer_disconnect = some r → r ∈ env.tasks) ∧
    (∀ r, env.sc_disconnect = some r → r ∈ env.tasks) ∧
    ((∀ t ∈ env.tasks, t = .ok ()) → disconnect_devices env = .ok ()) ∧
    (∀ e, disconnect_devices env = .error e → (Except.error e) ∈ env.tasks) ∧
    (∀ e, (Except.error e) ∈ env.tasks →
      ∃ e2, disconnect_devices env = .error e2) := by
  refine ⟨?_, ?_, ?_, gather_eq_ok env.tasks,
    fun e => gather_error_mem env.tasks e,
    fun e => gather_error_of_mem env.tasks e⟩
  · intro r hr
    simp [ShutdownEnv.tasks, hr]
  · intro r hr
    simp [ShutdownEnv.tasks, hr]
  · intro r hr
    simp [ShutdownEnv.tasks, hr]

/-- C7 counterexample: with a heart-rate session whose disconnect
succeeds and a speed/cadence session whose disconnect raises,
`disconnect_devices` propagates the exception instead of swallowing
it — its result is the error, not a normal return. -/
theorem c7_counterexample :
    disconnect_devices (E := String)
      { hr_disconnect := some (.ok ()), trainer_disconnect := Option.none,
        sc_disconnect := some (.error "device stuck") } = .error "device stuck" ∧
    (Except.error "device stuck" ≠ (Except.ok () : Except String Unit)) :=
  ⟨rfl, fun h => Except.noConfusion h⟩

/-- Witness for C7: with both present disconnects succeeding the
shutdown resolves normally, and with one raising the gather resolves to
an error. -/
theorem c7_shutdown_gather_witness :
    disconnect_devices (E := String)
      { hr_disconnect := some (.ok ()), trainer_disconnect := Option.none,
        sc_disconnect := some (.ok ()) } = .ok () ∧
    (∃ e2, disconnect_devices (E := String)
      { hr_disconnect := some (.ok ()), trainer_disconnect := Option.none,
        sc_disconnect := some (.error "device stuck") } = .error e2) := by
  constructor
  · exact (c7_shutdown_gather
      { hr_disconnect := some (.ok ()), trainer_disconnect := Option.none,
        sc_disconnect := some (.ok ()) }).2.2.2.1
      (by intro t ht; simp [ShutdownEnv.tasks] at ht; exact ht)
  · exact (c7_shutdown_gather
      { hr_disconnect := some (.ok ()), trainer_disconnect := Option.none,
        sc_disconnect := some (.error "device stuck") }).2.2.2.2.2 "device stuck"
      (by simp [ShutdownEnv.tasks])

/-! ## C9: monotonicity and provenance of available_metrics -/

theorem mem_extendNew_left (avail ms : List String) (m : String) (h : m ∈ avail) :
    m ∈ extendNew avail ms :=
  List.mem_append_left _ h

theorem mem_extendNew_src (avail ms : List String) (m : String)
    (h : m ∈ extendNew avail ms) : m ∈ avail ∨ m ∈ ms := by
  unfold extendNew at h
  rcases List.mem_append.mp h with h | h
  · exact Or.inl h
  · exact Or.inr (List.mem_filter.mp h).1

theorem mem_foldl_extendNew (g : Session → List String) :
    ∀ (sessions : List Session) (acc : List String) (m : String), m ∈ acc →
      m ∈ sessions.foldl (fun acc s => extendNew acc (g s)) acc := by
  intro sessions
  induction sessions with
  | nil => intro acc m h; simpa using h
  | cons s rest ih =>
    intro acc m h
    exact ih _ m (mem_extendNew_left _ _ m h)

theorem mem_foldl_extendNew_src (g : Session → List String) :
    ∀ (sessions : List Session) (acc : List String) (m : String),
      m ∈ sessions.foldl (fun acc s => extendNew acc (g s)) acc →
      m ∈ acc ∨ ∃ s ∈ sessions, m ∈ g s := by
  intro sessions
  induction sessions with
  | nil => intro acc m h; exact Or.inl (by simpa using h)
  | cons s rest ih =>
    intro acc m h
    rcases ih _ m h with h' | ⟨s', hs', hm⟩
    · rcases mem_extendNew_src _ _ m h' with h'' | h''
      · exact Or.inl h''
      · exact Or.inr ⟨s, List.mem_cons_self _ _, h''⟩
    · exact Or.inr ⟨s', List.mem_cons_of_mem _ hs', hm⟩

/-- C9 (amended): the controller's `available_metrics` grows
monotonically — the run loop's rescan only appends, so a kind once
present is never removed — and every kind it adds is reported (hence,
for sessions that report only emitted kinds, emitted) by some connected
session, with one exception: when the initial fold leaves
`available_metrics` empty and a connected device's name contains both
"wahoo" and "cadence", `"cadence"` is appended on the strength of the
device name alone, whether or not any session has emitted it. -/
theorem c9_available_metrics (sessions : List Session) (avail : List String)
    (mt : Option (List String))
    (hsound : ∀ s ∈ sessions, ∀ m ∈ s.reported, m ∈ s.emitted) :
    (∀ m ∈ avail, m ∈ runLoopScan sessions avail) ∧
    (∀ m ∈ runLoopScan sessions avail,
      m ∈ avail ∨ ∃ s ∈ sessions, m ∈ s.emitted) ∧
    (∀ m ∈ autoDiscoverMetrics sessions mt,
      (∃ s ∈ sessions, m ∈ s.emitted) ∨
      (m = "cadence" ∧ ∃ s ∈ sessions, isWahooCadenceName s.name = true)) := by
  refine ⟨?_, ?_, ?_⟩
  · intro m hm
    exact mem_foldl_extendNew _ sessions avail m hm
  · intro m hm
    rcases mem_foldl_extendNew_src _ sessions avail m hm with h | ⟨s, hs, hrep⟩
    · exact Or.inl h
    · exact Or.inr ⟨s, hs, hsound s hs m hrep⟩
  · intro m hm
    unfold autoDiscoverMetrics at hm
    dsimp only at hm
    split_ifs at hm with hcond
    · rcases List.mem_append.mp hm with h | h
      · rcases mem_foldl_extendNew_src _ sessions [] m h with h' | ⟨s, hs, hrep⟩
        · simp at h'
        · exact Or.inl ⟨s, hs, hsound s hs m (List.mem_filter.mp hrep).1⟩
      · have hmc : m = "cadence" := by simpa using h
        rcases List.any_eq_true.mp hcond.2 with ⟨s, hs, hw⟩
        exact Or.inr ⟨hmc, s, hs, hw⟩
    · rcases mem_foldl_extendNew_src _ sessions [] m hm with h' | ⟨s, hs, hrep⟩
      · simp at h'
      · exact Or.inl ⟨s, hs, hsound s hs m (List.mem_filter.mp hrep).1⟩

/-- A connected session whose device name reads as a Wahoo cadence
sensor but which has reported and emitted nothing. -/
def silentWahooSession : Session :=
  { name := "Wahoo CADENCE 1234", reported := [], emitted := [] }

/-- A connected heart-rate session that has emitted its one metric. -/
def hrmSession : Session :=
  { name := "HRM Strap", reported := ["heart_rate"], emitted := ["heart_rate"] }

/-- C9 counterexample: a connected session named "Wahoo CADENCE 1234"
that has reported and emitted nothing still causes the metric
initialization phase to add `"cadence"` to `available_metrics` — a kind
no connected session has emitted. -/
theorem c9_counterexample :
    "cadence" ∈ autoDiscoverMetrics [silentWahooSession] Option.none ∧
    ∀ s ∈ [silentWahooSession], "cadence" ∉ s.emitted := by
  constructor
  · decide
  · decide

/-- Witness for C9: with one heart-rate session that reports exactly
what it has emitted, a pre-existing `"power"` entry is still present
after a run-loop rescan, and every rescanned kind traces back to an
emitting session. -/
theorem c9_available_metrics_witness :
    ("power" ∈ runLoopScan [hrmSession] ["power"]) ∧
    (∀ m ∈ runLoopScan [hrmSession] ["power"],
      m ∈ ["power"] ∨ ∃ s ∈ [hrmSession], m ∈ s.emitted) := by
  have h := c9_available_metrics [hrmSession] ["power"] Option.none (by decide)
  exact ⟨h.1 "power" (by decide), h.2.1⟩

/-! ## C8: listening-mode loop -/

theorem listenGo_spec (env : ListenEnv) (timeout : Rat) (total : Nat) :
    ∀ fuel i count r c sleeps,
      listenGo env timeout total fuel i count = some (r, c, sleeps) →
        (∀ d ∈ sleeps, d = (2 : Rat)) ∧
        (r = .cancelled → ∃ j, env.shutdown j = true ∧ c < total) ∧
        (r = .timedOut → ∃ j, timeout < env.elapsed j) ∧
        (r = .allConnected → total ≤ c) := by
  intro fuel
  induction fuel with
  | zero => intro i count r c sleeps h; exact absurd h (by simp [listenGo])
  | succ n ih =>
    intro i count r c sleeps h
    rw [listenGo] at h
    by_cases hlt : count < total
    · rw [if_pos hlt] at h
      by_cases hsd : env.shutdown i
      · rw [if_pos hsd] at h
        injection h with h'
        injection h' with e1 h2
        injection h2 with e2 e3
        subst e1; subst e2; subst e3
        exact ⟨by simp, fun _ => ⟨i, hsd, hlt⟩, by simp, by simp⟩
      · rw [if_neg hsd] at h
        by_cases hto : timeout < env.elapsed i
        · rw [if_pos hto] at h
          injection h with h'
          injection h' with e1 h2
          injection h2 with e2 e3
          subst e1; subst e2; subst e3
          exact ⟨by simp, by simp, fun _ => ⟨i, hto⟩, by simp⟩
        · rw [if_neg hto] at h
          by_cases hbrk : env.connect_ok i ∧
              total ≤ (if env.connect_ok i then env.count_after i else count)
          · rw [if_pos hbrk] at h
            injection h with h'
            injection h' with e1 h2
            injection h2 with e2 e3
            subst e1; subst e2; subst e3
            exact ⟨by simp, by simp, by simp, fun _ => hbrk.2⟩
          · rw [if_neg hbrk] at h
            rcases hrec : listenGo env timeout total n (i + 1)
                (if env.connect_ok i then env.count_after i else count)
              with _ | ⟨r', c', sleeps'⟩
            · rw [hrec] at h; exact absurd h (by simp)
            · rw [hrec] at h
              injection h with h'
              injection h' with e1 h2
              injection h2 with e2 e3
              subst e1; subst e2; subst e3
              obtain ⟨hs, hc, ht, ha⟩ := ih (i + 1)
                (if env.connect_ok i then env.count_after i else count) r' c' sleeps' hrec
              refine ⟨?_, hc, ht, ha⟩
              intro d hd
              rcases List.mem_cons.mp hd with hd | hd
              · exact hd
              · exact hs d hd
    · rw [if_neg hlt] at h
      injection h with h'
      injection h' with e1 h2
      injection h2 with e2 e3
      subst e1; subst e2; subst e3
      exact ⟨by simp, by simp, by simp, fun _ => by omega⟩

theorem listenGo_total (env : ListenEnv) (timeout : Rat) (total : Nat)
    (hel : ∀ i, ((2 * i : Nat) : Rat) ≤ env.elapsed i) :
    ∀ fuel i count, 0 < fuel → timeout < ((2 * (i + fuel - 1) : Nat) : Rat) →
      (listenGo env timeout total fuel i count).isSome := by
  intro fuel
  induction fuel with
  | zero => intro i count h0 _; exact absurd h0 (by omega)
  | succ n ih =>
    intro i count _ hto
    rw [listenGo]
    by_cases hlt : count < total
    · rw [if_pos hlt]
      by_cases hsd : env.shutdown i
      · rw [if_pos hsd]; simp
      · rw [if_neg hsd]
        by_cases htime : timeout < env.elapsed i
        · rw [if_pos htime]; simp
        · rw [if_neg htime]
          cases n with
          | zero =>
            exfalso
            apply htime
            calc timeout < ((2 * (i + 1 - 1) : Nat) : Rat) := hto
              _ = ((2 * i : Nat) : Rat) := by norm_num
              _ ≤ env.elapsed i := hel i
          | succ n2 =>
            by_cases hbrk : env.connect_ok i ∧
                total ≤ (if env.connect_ok i then env.count_after i else count)
            · rw [if_pos hbrk]; simp
            · rw [if_neg hbrk]
              have hrec := ih (i + 1)
                (if env.connect_ok i then env.count_after i else count)
                (by omega)
                (by
                  have : 2 * (i + 1 + (n2 + 1) - 1) = 2 * (i + (n2 + 2) - 1) := by omega
                  rw [this]
                  exact hto)
              rcases hsome : listenGo env timeout total (n2 + 1) (i + 1)
                  (if env.connect_ok i then env.count_after i else count)
                with _ | ⟨r', c', sleeps'⟩
              · rw [hsome] at hrec; exact absurd hrec (by simp)
              · simp
    · rw [if_neg hlt]; simp

/-- C8: whenever the listening loop returns, its boolean result is true
exactly when at least one device connected (`connected_count > 0`);
every poll sleep it performed is exactly 2 seconds; a `cancelled` exit
happens only with the shutdown flag observed set (checked every
iteration), a `timedOut` exit only with the elapsed time past the
caller-supplied timeout, and an `allConnected` exit only with every
configured device connected.  Moreover, under the loop's own 2-second
pacing (elapsed time at iteration `i` is at least `2*i`), the loop
always returns given fuel exceeding `timeout/2 + 1` iterations. -/
theorem c8_listen_loop (env : ListenEnv) (timeout : Rat) (total fuel : Nat) :
    (∀ b r c sleeps,
      listen_for_devices_connection env timeout total fuel = some (b, r, c, sleeps) →
        ((b = true ↔ 0 < c) ∧
         (∀ d ∈ sleeps, d = (2 : Rat)) ∧
         (r = .cancelled → ∃ j, env.shutdown j = true ∧ c < total) ∧
         (r = .timedOut → ∃ j, timeout < env.elapsed j) ∧
         (r = .allConnected → total ≤ c))) ∧
    ((∀ i, ((2 * i : Nat) : Rat) ≤ env.elapsed i) → 0 < fuel →
      timeout < ((2 * (fuel - 1) : Nat) : Rat) →
      (listen_for_devices_connection env timeout total fuel).isSome) := by
  constructor
  · intro b r c sleeps h
    unfold listen_for_devices_connection at h
    rcases hgo : listenGo env timeout total fuel 0 0 with _ | ⟨r0, c0, sleeps0⟩
    · rw [hgo] at h; exact absurd h (by simp)
    · rw [hgo] at h
      injection h with h'
      injection h' with e1 h2
      injection h2 with e2 h3
      injection h3 with e3 e4
      subst e1; subst e2; subst e3; subst e4
      obtain ⟨hs, hc, ht, ha⟩ := listenGo_spec env timeout total fuel 0 0 r0 c0
        sleeps0 hgo
      exact ⟨by simp, hs, hc, ht, ha⟩
  · intro hel hfuel hto
    unfold listen_for_devices_connection
    have := listenGo_total env timeout total hel fuel 0 0 hfuel (by simpa using hto)
    rcases hgo : listenGo env timeout total fuel 0 0 with _ | ⟨r0, c0, sleeps0⟩
    · rw [hgo] at this; exact absurd this (by simp)
    · simp

/-- The listening environment used by the C8 witness: the shutdown flag
is already set, the loop time advances 2 seconds per iteration, and no
connection attempt reports progress. -/
def listenEnvW : ListenEnv :=
  { shutdown := fun _ => true, elapsed := fun i => ((2 * i : Nat) : Rat),
    connect_ok := fun _ => false, count_after := fun _ => 0 }

/-- Witness for C8: with the cancellation flag set before the first
iteration and one configured device, the loop exits immediately as
`cancelled` with no device connected and result `false`, and the loop is
total under the 2-second pacing. -/
theorem c8_listen_loop_witness :
    listen_for_devices_connection listenEnvW 0 1 2 =
      some (false, .cancelled, 0, []) ∧
    (false = true ↔ 0 < 0) ∧
    (∃ j, listenEnvW.shutdown j = true ∧ 0 < 1) ∧
    (listen_for_devices_connection listenEnvW 0 1 2).isSome := by
  have hrun : listen_for_devices_connection listenEnvW 0 1 2 =
      some (false, .cancelled, 0, []) := rfl
  have h := (c8_listen_loop listenEnvW 0 1 2).1 false .cancelled 0 [] hrun
  refine ⟨hrun, h.1, h.2.2.1 rfl, ?_⟩
  exact (c8_listen_loop listenEnvW 0 1 2).2 (fun i => le_of_eq rfl)
    (by omega) (by norm_num)

/-! ## C10: fabricated zero heart-rate sample at connect time -/

/-- C10: on every successful heart-rate connect with a data callback
configured, the `connect` call itself invokes the callback exactly once,
with metric `"heart_rate"` and value 0 — before any BLE notification,
since `connect` contains no suspension point between `start_notify`
returning and the callback invocation, and processes no notification
itself. -/
theorem c10_zero_sample_at_connect (env : HRConnectEnv)
    (h1 : env.device_found = true) (h2 : env.client_connect_ok = true)
    (h3 : env.start_notify_ok = true) :
    HeartRateDevice.connect env true = (true, [("heart_rate", PyVal.int 0)]) := by
  simp [HeartRateDevice.connect, h1, h2, h3]

/-- Witness for C10: a fully successful connect environment yields the
single fabricated zero sample. -/
theorem c10_zero_sample_at_connect_witness :
    HeartRateDevice.connect ⟨true, true, true⟩ true =
      (true, [("heart_rate", PyVal.int 0)]) :=
  c10_zero_sample_at_connect ⟨true, true, true⟩ rfl rfl rfl

end Peloterm
